import Mathlib

/-
  Verification development for the beast multi-region buffer core and the
  SOCKS5 client handshake example.

  Shallow embedding conventions:
  * memory regions are lists of bytes (List Nat);
  * `std::size_t` values are Nat; subtractions that the C++ code performs in
    size_t (and that may wrap) are modelled by `wsub`, which is exact for
    operands below 2^64;
  * pointers into the storage-element array are `Option Int` (none models the
    null sentinel pointer used by `adjust`), pointer arithmetic is Int
    arithmetic on the index;
  * functions that can throw return `Except`, threading the state reached at
    the throw point.
-/

/-- Width of size_t: 2^64. -/
def WSIZE : Nat := 18446744073709551616

/-- Wrapping size_t subtraction `a - b`, exact for `a, b < 2^64`. -/
def wsub (a b : Nat) : Nat :=
  if b ≤ a then a - b else WSIZE - (b - a)

/-- Error value standing for a thrown `std::length_error`. -/
inductive BufError where
  | lengthError
deriving DecidableEq, Repr

/-- Error value standing for a failed `BOOST_ASSERT`. -/
inductive AssertError where
  | assertionFailed
deriving DecidableEq, Repr

/-- Whether an `Except` result is the error case (a throw). -/
def exceptIsErr : Except ε α → Bool
  | .error _ => true
  | .ok _ => false

/- ---------------------------------------------------------------------
   detail::buffers_pair (detail/impl/buffers_pair.ipp)
   Each of the two buffers is modelled by its byte contents.
   --------------------------------------------------------------------- -/

/-- Model of `detail::buffers_pair`: two buffers, each a byte list. -/
structure BuffersPair where
  b0 : List Nat
  b1 : List Nat
deriving DecidableEq, Repr

/-- The flattened byte sequence of a `buffers_pair`. -/
def BuffersPair.flat (p : BuffersPair) : List Nat := p.b0 ++ p.b1

/-- Tail of the sub-range constructor of `buffers_pair` after the first
`if (pos >= b_[0].size())` step: the remaining statements of
`buffers_pair(buffers_pair const&, std::size_t pos, std::size_t n)`.
`b_[0] += pos` is modelled by `List.drop pos` and
`b_[0] = {b_[0].data(), n}` (with `n ≤` size) by `List.take n`. -/
def buffersPairSubTail (b0 b1 : List Nat) (pos n : Nat) : BuffersPair :=
  -- if (pos >= b_[0].size()) { b_[0] = {}; return; }
  if b0.length ≤ pos then ⟨[], b1⟩
  else
    -- b_[0] += pos;
    let c0 := b0.drop pos
    -- if (n <= b_[0].size()) { b_[0] = {b_[0].data(), n}; b_[1] = {}; return; }
    if n ≤ c0.length then ⟨c0.take n, []⟩
    -- n -= b_[0].size(); if (n <= b_[1].size()) b_[1] = {b_[1].data(), n};
    else if n - c0.length ≤ b1.length then ⟨c0, b1.take (n - c0.length)⟩
    else ⟨c0, b1⟩

/-- Model of the sub-range constructor
`buffers_pair::buffers_pair(buffers_pair const& other, std::size_t pos, std::size_t n)`. -/
def BuffersPair.sub (other : BuffersPair) (pos n : Nat) : BuffersPair :=
  -- if (pos >= b_[0].size()) { pos -= b_[0].size(); b_[0] = b_[1]; b_[1] = {}; }
  if other.b0.length ≤ pos then
    buffersPairSubTail other.b1 [] (pos - other.b0.length) n
  else
    buffersPairSubTail other.b0 other.b1 pos n

/- ---------------------------------------------------------------------
   storage_element_container::consume (multi_buffer.hpp)
   The store is the list of storage elements, each modelled by its
   readable bytes; `iter->consume(n)` advances begin_used_, i.e. drops
   n bytes from the front; `erase_element` frees and removes the element.
   --------------------------------------------------------------------- -/

/-- Model of `storage_element_container::consume`: walk the store from the
front; if `n >= iter->size()` the element is fully consumed and erased,
otherwise `iter->consume(n)` drops `n` bytes from its front and the loop ends
(`n = 0`). The loop also ends when `n` reaches zero or the store is empty. -/
def containerConsume : List (List Nat) → Nat → List (List Nat)
  | [], _ => []
  | b :: bs, n =>
    if n = 0 then b :: bs
    else if b.length ≤ n then containerConsume bs (n - b.length)
    else b.drop n :: bs

/-- The readable run of the container: concatenation of its elements. -/
def containerFlat (st : List (List Nat)) : List Nat := st.flatten

/- ---------------------------------------------------------------------
   flat_static_buffer_base::consume (flat_static_buffer.ipp, appended in
   src to multi_buffer.hpp).  Layout: begin_ .. in_ .. out_ .. last_ .. end_;
   offsets are relative to begin_.
   --------------------------------------------------------------------- -/

/-- Model of `flat_static_buffer_base`: the backing array plus the
`in_`/`out_` cursors as offsets from `begin_`. -/
structure FlatStaticBuffer where
  data : List Nat
  inOff : Nat
  outOff : Nat
deriving DecidableEq, Repr

/-- `flat_static_buffer_base::size()`: readable byte count `out_ - in_`. -/
def fsbSize (s : FlatStaticBuffer) : Nat := s.outOff - s.inOff

/-- The readable bytes `[in_, out_)` of a `flat_static_buffer_base`. -/
def fsbReadable (s : FlatStaticBuffer) : List Nat :=
  (s.data.drop s.inOff).take (s.outOff - s.inOff)

/-- Model of `flat_static_buffer_base::consume`:
`if (n >= size()) { in_ = begin_; out_ = in_; return; } in_ += n;`. -/
def fsbConsume (s : FlatStaticBuffer) (n : Nat) : FlatStaticBuffer :=
  if s.outOff - s.inOff ≤ n then { s with inOff := 0, outOff := 0 }
  else { s with inOff := s.inOff + n }

/- ---------------------------------------------------------------------
   storage_element_container::add (multi_buffer.hpp)
   A storage element is modelled by its capacity and the end_used_ offset
   (available() = capacity - used).  `acquire` carries the BOOST_ASSERT
   `available() >= n` as an error result.
   --------------------------------------------------------------------- -/

/-- Model of a `storage_element` for the growth path: total capacity and the
used (acquired) byte count; `available() = cap - used`. -/
structure SElem where
  cap : Nat
  used : Nat
deriving DecidableEq, Repr

/-- `storage_element::available()`. -/
def SElem.available (e : SElem) : Nat := e.cap - e.used

/-- `storage_element::acquire(n)`: asserts `available() >= n`, then
`end_used_ += n`.  The assertion failure is surfaced as an error. -/
def SElem.acquire (e : SElem) (n : Nat) : Except AssertError SElem :=
  if n ≤ e.available then .ok ⟨e.cap, e.used + n⟩ else .error .assertionFailed

/-- Model of `storage_element_container` for the growth path: the store and
`min_block_size_` (initialised to 4096). -/
structure SEC where
  store : List SElem
  minBlockSize : Nat
deriving DecidableEq, Repr

/-- Model of `storage_element_container::add(required_space)`.  The source
reads the last element through `*store_.end()` (itself out of bounds; the
intent is the last element, modelled here): if `last.available() <=
required_space` it calls `last.acquire(required_space)` and returns;
otherwise it (possibly) raises `min_block_size_` to the request
(`round_up` is the identity) and pushes a fresh element of capacity
`min_block_size_` with `required_space` bytes acquired. -/
def SEC.add (s : SEC) (required : Nat) : Except AssertError SEC :=
  let alloc : Except AssertError SEC :=
    let m := if s.minBlockSize < required then required else s.minBlockSize
    .ok ⟨s.store ++ [⟨m, required⟩], m⟩
  match s.store.getLast? with
  | some lastE =>
    if lastE.available ≤ required then
      match lastE.acquire required with
      | .ok e => .ok ⟨s.store.dropLast ++ [e], s.minBlockSize⟩
      | .error a => .error a
    else alloc
  | none => alloc

/- ---------------------------------------------------------------------
   detail::dynamic_buffer_handle<AsioV2DynamicBuffer, asio_v2_behaviour>
   (detail/dynamic_buffer_handle.hpp).  The underlying v2 buffer in this
   repository is dynamic_buffer_v0_proxy over a beast v0 buffer; its byte
   content and maximum size model the observable v2 state.
   --------------------------------------------------------------------- -/

/-- Model of `dynamic_buffer_handle<AsioV2DynamicBuffer, asio_v2_behaviour>`:
the underlying v2 buffer's content and max size plus the handle's
`prepared` counter (the `n` of the last `prepare`). -/
structure DBHandle where
  content : List Nat
  maxSize : Nat
  prepared : Nat
deriving DecidableEq, Repr

/-- Modelled from the spec: `dynamic_buffer_v0_proxy::grow(n)` is
`storage_->commit(buffer_size(storage_->prepare(n)))`; the implementation of
`basic_multi_buffer::prepare`/`commit` is not under src/, and per their
documented contract `prepare` throws `std::length_error` if
`size() + n` exceeds `max_size()`, otherwise exactly `n` writable bytes are
produced and `commit(n)` appends them to the readable bytes (their values
are unspecified; zero here). -/
def dbGrow (content : List Nat) (maxSize n : Nat) : Except BufError (List Nat) :=
  if maxSize < content.length + n then .error .lengthError
  else .ok (content ++ List.replicate n 0)

/-- `dynamic_buffer_v2` `data(pos, n)` of the underlying buffer (for the
proxy this is the readable bytes restricted to `[pos, pos+n)`). -/
def dbData (content : List Nat) (pos n : Nat) : List Nat :=
  (content.drop pos).take n

/-- `dynamic_buffer_handle::size()`:
`impl.dyn_buf.size() - impl.prepared`. -/
def hSize (s : DBHandle) : Nat := s.content.length - s.prepared

/-- `dynamic_buffer_handle::max_size()`. -/
def hMaxSize (s : DBHandle) : Nat := s.maxSize

/-- Model of `dynamic_buffer_handle<_, asio_v2_behaviour>::prepare(n)`:
`if (impl.dyn_buf.size() + n > impl.dyn_buf.max_size()) throw length_error;
impl.prepared = n; impl.dyn_buf.grow(n);
return impl.dyn_buf.data(impl.dyn_buf.size() - impl.prepared, impl.prepared);`
The pair threads the state reached at each exit (the throw happens before
any mutation, so the error case carries the input state). -/
def hPrepare (s : DBHandle) (n : Nat) : Except BufError (List Nat) × DBHandle :=
  if s.maxSize < s.content.length + n then (.error .lengthError, s)
  else
    let s1 : DBHandle := { s with prepared := n }
    match dbGrow s1.content s1.maxSize n with
    | .error e => (.error e, s1)
    | .ok c2 =>
      let s2 : DBHandle := { s1 with content := c2 }
      (.ok (dbData s2.content (s2.content.length - s2.prepared) s2.prepared), s2)

/-- Model of `dynamic_buffer_handle<_, asio_v2_behaviour>::commit(n)`:
`if (n < impl.prepared) impl.dyn_buf.shrink(impl.prepared - n);
impl.prepared = 0;` where `shrink(k)` erases `k` bytes from the end. -/
def hCommit (s : DBHandle) (n : Nat) : DBHandle :=
  if n < s.prepared then
    { s with content := s.content.take (s.content.length - (s.prepared - n)),
             prepared := 0 }
  else { s with prepared := 0 }

/- ---------------------------------------------------------------------
   buffer_sequence / buffer_sequence_iterator / discount / adjust
   (multi_buffer.hpp).  The underlying storage-element array is a list of
   blocks, each block being its readable bytes.  A pointer into the array
   is `Option Int` (none = nullptr); iterator arithmetic is arithmetic on
   the index.
   --------------------------------------------------------------------- -/

/-- Model of `discount { std::size_t amount; difference_type where; }`. -/
structure Discount where
  amount : Nat
  where_ : Int
deriving DecidableEq, Repr

/-- `discount::operator+=(int n)`: `where -= n`. -/
def Discount.shift (d : Discount) (n : Int) : Discount :=
  ⟨d.amount, d.where_ - n⟩

/-- `discount::applies()`: `where == 0 && amount != 0`. -/
def Discount.applies (d : Discount) : Bool :=
  d.where_ == 0 && d.amount != 0

/-- A pointer into the storage-element array: none models nullptr. -/
def ElemPtr : Type := Option Int
deriving instance DecidableEq, Repr for ElemPtr

/-- Pointer arithmetic `p + n`. -/
def padd (p : ElemPtr) (n : Int) : ElemPtr := p.map (· + n)

/-- `std::distance(a, b)` on element pointers (only used on non-null
pointers; 0 otherwise). -/
def pdist (a b : ElemPtr) : Int :=
  match a, b with
  | some x, some y => y - x
  | _, _ => 0

/-- The block at index `i` of the array (out-of-range reads, undefined in
C++, yield the empty block). -/
def blkAt (blocks : List (List Nat)) (i : Int) : List Nat :=
  if i < 0 then [] else ((blocks.drop i.toNat).headD [])

/-- `storage_element::size()` of the element a pointer refers to. -/
def pblkSize (blocks : List (List Nat)) (p : ElemPtr) : Nat :=
  match p with
  | some i => (blkAt blocks i).length
  | none => 0

/-- Model of `buffer_sequence_iterator`: the element pointer `f_` and the
two discounts. -/
structure BufSeqIter where
  f : ElemPtr
  initD : Discount
  finD : Discount
deriving DecidableEq, Repr

/-- `buffer_sequence_iterator::operator+=(n)`:
`f_ += n; initial_discount_ += n; final_discount_ += n;`. -/
def iterAdd (it : BufSeqIter) (n : Int) : BufSeqIter :=
  ⟨padd it.f n, it.initD.shift n, it.finD.shift n⟩

/-- Model of `net::const_buffer` (or `mutable_buffer`): the element index it
points into, the byte offset of its data pointer from the element's
`begin_used_`, and its size.  The size is a size_t value. -/
structure ConstBuf where
  idx : Int
  off : Nat
  size : Nat
deriving DecidableEq, Repr

/-- asio `buffer += n`: advances the data pointer by `min(n, size)` and
shrinks the size accordingly (asio clamps internally). -/
def bufAdd (b : ConstBuf) (n : Nat) : ConstBuf :=
  ⟨b.idx, b.off + min n b.size, b.size - min n b.size⟩

/-- The final-discount branch of `buffer_sequence_iterator::trim`:
`result = value_type(result.data() + amount, result.size() - amount)` —
size_t subtraction, hence `wsub`. -/
def finTrim (b : ConstBuf) (amount : Nat) : ConstBuf :=
  ⟨b.idx, b.off + amount, wsub b.size amount⟩

/-- Model of `buffer_sequence_iterator::operator*`, i.e. `trim(value_type(*f_))`:
start from the element's full readable region, apply the initial discount
(asio `+=`) when it applies, then the final discount branch when it applies. -/
def derefIter (blocks : List (List Nat)) (it : BufSeqIter) : ConstBuf :=
  match it.f with
  | none => ⟨0, 0, 0⟩
  | some i =>
    let b0 : ConstBuf := ⟨i, 0, (blkAt blocks i).length⟩
    let b1 := if it.initD.applies then bufAdd b0 it.initD.amount else b0
    if it.finD.applies then finTrim b1 it.finD.amount else b1

/-- Model of `storage_element_container::buffer_sequence`: the storage-element
array and the `begin_`/`end_` iterators. -/
structure BufSeq where
  blocks : List (List Nat)
  begin_ : BufSeqIter
  end_ : BufSeqIter
deriving DecidableEq, Repr

/-- The buffer_sequence constructor `buffer_sequence(first, last)`:
`begin_(first, discount{0,0}, discount{0, distance(first,last)-1}), end_(begin_);
end_ += distance(first, last);` applied to a whole store, as in
`storage_element_container::make_sequence`. -/
def makeSeq (blocks : List (List Nat)) : BufSeq :=
  let n : Int := blocks.length
  let b : BufSeqIter := ⟨some 0, ⟨0, 0⟩, ⟨0, n - 1⟩⟩
  ⟨blocks, b, iterAdd b n⟩

/-- The list of buffers obtained by iterating from `begin_` to `end_`
(the buffer-sequence traversal used by `net::buffer_size` and by
`net::buffers_iterator`). -/
def seqBufs (v : BufSeq) : List ConstBuf :=
  (List.range (pdist v.begin_.f v.end_.f).toNat).map
    (fun i => derefIter v.blocks (iterAdd v.begin_ (i : Int)))

/-- `net::buffer_size` over the view: the sum of the sizes of its buffers. -/
def seqLength (v : BufSeq) : Nat :=
  (seqBufs v).foldr (fun b acc => b.size + acc) 0

/-- The bytes a buffer refers to.  Reads beyond the block (undefined
behaviour in C++) are clamped. -/
def bufBytes (blocks : List (List Nat)) (b : ConstBuf) : List Nat :=
  ((blkAt blocks b.idx).drop b.off).take b.size

/-- The flattened byte sequence the view represents. -/
def seqFlat (v : BufSeq) : List Nat :=
  ((seqBufs v).map (bufBytes v.blocks)).flatten

/-- The null iterator `iterator(nullptr, discount{0,0}, discount{0,0})`
used by `adjust` as the empty sentinel. -/
def nullIter : BufSeqIter := ⟨none, ⟨0, 0⟩, ⟨0, 0⟩⟩

/-- First loop of `adjust`:
`while (first != last && pos) { if (first->size() < pos) { pos -= first->size();
++first; initial_discount = discount{pos, 0}; } else { initial_discount =
discount{pos, 0}; pos = 0; } }`.  The fuel is `distance(first, last)`. -/
def adjustLoop1 (blocks : List (List Nat)) :
    Nat → ElemPtr → Nat → Discount → ElemPtr × Discount
  | 0, first, _, d => (first, d)
  | fuel + 1, first, pos, d =>
    if pos = 0 then (first, d)
    else
      let s := pblkSize blocks first
      if s < pos then adjustLoop1 blocks fuel (padd first 1) (pos - s) ⟨pos - s, 0⟩
      else (first, ⟨pos, 0⟩)

/-- The `current_size` lambda of `adjust`: the current element's size, minus
`current_discount.amount` (size_t subtraction) when that discount applies.
`current_discount` is captured once and never updated by the loop. -/
def adjustCurSize (blocks : List (List Nat)) (cd : Discount) (c : ElemPtr) : Nat :=
  let s := pblkSize blocks c
  if cd.applies then wsub s cd.amount else s

/-- Second loop of `adjust`:
`while (current != last) { auto size = current_size(); if (limit <= size)
{ final_discount = discount{size - limit, distance(first, current)}; ++current;
break; } else { limit -= size; ++current; } }`.  If the loop exhausts the
range without breaking, the pre-loop `final_discount` value `fd` stands. -/
def adjustLoop2 (blocks : List (List Nat)) (cd : Discount) (first : ElemPtr) :
    Nat → ElemPtr → Nat → Discount → Discount
  | 0, _, _, fd => fd
  | fuel + 1, current, limit, fd =>
    let s := adjustCurSize blocks cd current
    if limit ≤ s then ⟨s - limit, pdist first current⟩
    else adjustLoop2 blocks cd first fuel (padd current 1) (limit - s) fd

/-- Model of `buffer_sequence::adjust(pos, limit)` (multi_buffer.hpp),
translated statement by statement. -/
def seqAdjust (v : BufSeq) (pos limit : Nat) : BufSeq :=
  -- short-circuit empty range
  if v.begin_.f = v.end_.f then v
  else
    -- auto size = net::buffer_size(*this); size = size > pos ? size - pos : 0;
    -- limit = min(limit, size);
    let size0 := seqLength v
    let size1 := if pos < size0 then size0 - pos else 0
    let limit1 := min limit size1
    -- special case for zero limit
    if limit1 = 0 then { v with begin_ := nullIter, end_ := nullIter }
    else
      let first0 := v.begin_.f
      let initD0 := v.begin_.initD
      -- if (initial_discount.applies()) pos += initial_discount.amount;
      let pos1 := if initD0.applies then pos + initD0.amount else pos
      let last := v.end_.f
      let (first1, initD1) :=
        adjustLoop1 v.blocks (pdist first0 last).toNat first0 pos1 initD0
      -- final_discount = discount{ limit - current_size(), distance(first, current) };
      let pre : Discount := ⟨wsub limit1 (adjustCurSize v.blocks initD1 first1), 0⟩
      let finD1 :=
        adjustLoop2 v.blocks initD1 first1 (pdist first1 last).toNat first1 limit1 pre
      -- begin_ = iterator(first, initial_discount, final_discount);
      -- end_ = begin_ + distance(first, last);
      let b : BufSeqIter := ⟨first1, initD1, finD1⟩
      { v with begin_ := b, end_ := iterAdd b (pdist first1 last) }

/- ---------------------------------------------------------------------
   socks5_op (example/contrib/socks-client/socks/impl/async_handshake_v5.hpp)
   The active coroutine-based operator() is modelled invocation by
   invocation.  Per the asio stackless-coroutine macros, `yield <expr>;`
   evaluates the expression (initiating the asynchronous operation) and
   then jumps out of the `reenter` switch, so the statement after the
   reenter block — `this->complete_now(ec);` — executes at the end of
   EVERY invocation of operator(), whether the invocation suspended at a
   yield, broke out on an error, or ran to the end of the block.
   --------------------------------------------------------------------- -/

/-- The error codes reachable in `socks5_op::operator()`.  `ok` is the
default-constructed (success) `error_code`. -/
inductive ECode where
  | ok
  | protocolError
  | unsupportedAuthVersion
  | notImplemented
  | missingUsername
deriving DecidableEq, Repr

/-- An asynchronous operation initiated by a yield of `socks5_op`. -/
inductive SAction where
  | write (bytes : List Nat)
  | read (n : Nat)
  | auth (user pass : List Nat)
deriving DecidableEq, Repr

/-- The resume points of the coroutine: `p0` = initial entry, `p1` = after
the greeting write, `p2` = after the method-selection read, `p3` = after the
username/password authentication sub-operation. -/
inductive CoroPoint where
  | p0
  | p1
  | p2
  | p3
deriving DecidableEq, Repr

/-- `socks5_op::build_method_selection_message()`: clears the buffer then
appends 0x05 (version), 0x02 (2 methods), 0x00 (no authentication),
0x02 (username/password) — unconditionally, whatever the credentials. -/
def buildMethodSelectionMessage : List Nat := [5, 2, 0, 2]

/-- The method bytes advertised by a greeting `[ver, nmethods, m...]`. -/
def greetingMethods (g : List Nat) : List Nat := g.drop 2

/-- `socks5_op::prepare_rx_method_selection()`: `buffer_.resize(2)`
(truncates, zero-padding if shorter). -/
def prepareRxMethodSelection (buf : List Nat) : List Nat :=
  (buf ++ List.replicate 2 0).take 2

/-- Result of one invocation of `socks5_op::operator()(ec, n)`: the next
resume point, the buffer contents on exit, the asynchronous operation
initiated by a yield (none if the invocation reached a terminal point), and
the argument of the `complete_now(ec)` call that ends every invocation. -/
structure InvOut where
  next : CoroPoint
  buffer : List Nat
  initiated : Option SAction
  completed : ECode
deriving DecidableEq, Repr

/-- `socks5_op::validate_authentication_method(ec)`: checks
`buffer_[0] == SOCKS_VERSION_5`, reads `buffer_[1]`, accepts methods
0x00 (SOCKS5_AUTH_NONE) and 0x02 (SOCKS5_AUTH), sets `ec` otherwise;
returns the pair (resulting ec, method byte read). -/
def validateAuthenticationMethod (buf : List Nat) : ECode × Nat :=
  if buf.getD 0 0 ≠ 5 then (.protocolError, 255)
  else
    let m := buf.getD 1 0
    if m = 0 ∨ m = 2 then (.ok, m) else (.unsupportedAuthVersion, m)

/-- One invocation of `socks5_op::operator()(ec, bytes_transferred)` from a
given resume point with given buffer contents (for an invocation resuming a
read, `buf` is the bytes the read placed in the buffer).  Each branch
mirrors the active source: on `p0` build the greeting and yield
`async_write`; on `p1` check `ec`, prepare the two-byte receive buffer and
yield `async_read`; on `p2` check `ec`, validate the method-selection
reply, then method 0 falls through to `ec = socks_not_implemented`,
method 2 yields `async_socks5_auth_username_password`; on `p3` check `ec`
and otherwise reach `ec = socks_not_implemented`.  Every invocation ends
with `complete_now(ec)`, recorded in `completed`. -/
def socks5Invoke (user pass : List Nat) :
    CoroPoint → ECode → List Nat → InvOut
  | .p0, ec, _ =>
    ⟨.p1, buildMethodSelectionMessage,
      some (.write buildMethodSelectionMessage), ec⟩
  | .p1, ec, buf =>
    if ec ≠ .ok then ⟨.p1, buf, none, ec⟩
    else
      let buf2 := prepareRxMethodSelection buf
      ⟨.p2, buf2, some (.read 2), ec⟩
  | .p2, ec, buf =>
    if ec ≠ .ok then ⟨.p2, buf, none, ec⟩
    else
      let (ec2, m) := validateAuthenticationMethod buf
      if ec2 ≠ .ok then ⟨.p2, buf, none, ec2⟩
      else if m = 0 then ⟨.p2, buf, none, .notImplemented⟩
      else ⟨.p3, buf, some (.auth user pass), ec2⟩
  | .p3, ec, buf =>
    if ec ≠ .ok then ⟨.p3, buf, none, ec⟩
    else ⟨.p3, buf, none, .notImplemented⟩

/-- Modelled from the spec: the username/password authentication
sub-operation (`socks5_username_password_authentication.hpp`, not under
src/).  Per the spec, when username/password authentication is selected
"without credentials present, fail with a missing-credentials error"
("missing username") "before any auth bytes are sent"; otherwise the
request `[0x01][ulen][username][plen][password]` is written.  Result: the
writes the sub-operation performs and the error code it completes with. -/
def authUsernamePassword (user pass : List Nat) : List (List Nat) × ECode :=
  if user = [] then ([], .missingUsername)
  else ([[1, user.length] ++ user ++ [pass.length] ++ pass], .ok)

/-- The run in which the transport delivers every operation successfully and
the server's method-selection reply is `[5, 0]` (no authentication): the
sequence of the three invocations of `operator()` that occur. -/
def traceNoAuth : List InvOut :=
  let i1 := socks5Invoke [] [] .p0 .ok []
  let i2 := socks5Invoke [] [] i1.next .ok i1.buffer
  let i3 := socks5Invoke [] [] i2.next .ok [5, 0]
  [i1, i2, i3]

/-- The run with empty credentials in which the transport delivers every
operation successfully and the server's method-selection reply is `[5, 2]`
(username/password selected): the greeting write, the method-selection
read, the invocation that starts the authentication sub-operation, and the
invocation resuming with the sub-operation's completion code. -/
def traceAuthEmptyCreds : List InvOut :=
  let i1 := socks5Invoke [] [] .p0 .ok []
  let i2 := socks5Invoke [] [] i1.next .ok i1.buffer
  let i3 := socks5Invoke [] [] i2.next .ok [5, 2]
  let i4 := socks5Invoke [] [] i3.next (authUsernamePassword [] []).2 i3.buffer
  [i1, i2, i3, i4]

/-- The byte sequences written to the transport during a trace of
invocations (the payloads of the initiated write actions). -/
def traceWrites (t : List InvOut) : List (List Nat) :=
  t.filterMap (fun o =>
    match o.initiated with
    | some (.write bs) => some bs
    | _ => none)

/- ---------------------------------------------------------------------
   Theorems
   --------------------------------------------------------------------- -/

/-- The tail of the `buffers_pair` sub-range constructor restricts the
flattening to `[pos, pos+n)`, provided the early-exit case can only fire
with an already-empty second buffer (which holds at both call sites). -/
theorem buffersPairSubTail_flat (b0 b1 : List Nat) (pos n : Nat)
    (h : b1 = [] ∨ pos < b0.length) :
    (buffersPairSubTail b0 b1 pos n).flat = (((b0 ++ b1).drop pos).take n) := by
  simp only [buffersPairSubTail]
  by_cases h1 : b0.length ≤ pos
  · have hb1 : b1 = [] := by
      rcases h with hb | hp
      · exact hb
      · omega
    subst hb1
    rw [if_pos h1]
    simp [BuffersPair.flat, List.drop_eq_nil_of_le (i := pos) h1,
      List.drop_append_eq_append_drop]
  · rw [if_neg h1]
    push_neg at h1
    have hlen : (b0.drop pos).length = b0.length - pos := by
      simp [List.length_drop]
    have hdrop : (b0 ++ b1).drop pos = b0.drop pos ++ b1 := by
      rw [List.drop_append_eq_append_drop]
      have hpos0 : pos - b0.length = 0 := by omega
      rw [hpos0, List.drop_zero]
    rw [hdrop, List.take_append_eq_append_take]
    by_cases h2 : n ≤ (b0.drop pos).length
    · rw [if_pos h2]
      have hz : n - (b0.length - pos) = 0 := by omega
      simp [BuffersPair.flat, hz]
    · rw [if_neg h2]
      have ht1 : List.take n (List.drop pos b0) = List.drop pos b0 :=
        List.take_of_length_le (by omega)
      by_cases h3 : n - (b0.drop pos).length ≤ b1.length
      · rw [if_pos h3]
        simp [BuffersPair.flat, ht1, hlen]
      · rw [if_neg h3]
        have ht2 : List.take (n - (b0.length - pos)) b1 = b1 :=
          List.take_of_length_le (by omega)
        simp [BuffersPair.flat, ht1, ht2]

/-- Claim C10: the sub-range constructor
`buffers_pair(other, pos, n)` produces a pair whose flattened byte sequence
is the flattened byte sequence of `other` restricted to `[pos, pos + n)`
(`List.drop`/`List.take` clamp exactly as the claim requires, so a `pos` at
or beyond the total length yields the empty pair, and no byte outside the
two source regions is referenced). -/
theorem buffers_pair_sub_flattening (p : BuffersPair) (pos n : Nat) :
    (p.sub pos n).flat = ((p.flat.drop pos).take n) := by
  simp only [BuffersPair.sub]
  by_cases h1 : p.b0.length ≤ pos
  · rw [if_pos h1, buffersPairSubTail_flat _ _ _ _ (Or.inl rfl)]
    have : p.flat.drop pos = p.b1.drop (pos - p.b0.length) := by
      simp only [BuffersPair.flat]
      rw [List.drop_append_eq_append_drop, List.drop_eq_nil_of_le (i := pos) h1]
      simp
    rw [this]
    simp
  · rw [if_neg h1, buffersPairSubTail_flat _ _ _ _ (Or.inr (by omega))]
    rfl

/-- `storage_element_container::consume(n)` removes exactly the first
`min(n, size())` bytes: the remaining readable run is the old one with `n`
dropped (clamped). -/
theorem containerConsume_flat (st : List (List Nat)) (n : Nat) :
    containerFlat (containerConsume st n) = (containerFlat st).drop n := by
  induction st generalizing n with
  | nil => simp [containerConsume, containerFlat]
  | cons b bs ih =>
    simp only [containerConsume]
    by_cases h0 : n = 0
    · simp [h0]
    · rw [if_neg h0]
      by_cases h1 : b.length ≤ n
      · rw [if_pos h1, ih]
        simp only [containerFlat, List.flatten_cons]
        rw [List.drop_append_eq_append_drop, List.drop_eq_nil_of_le h1]
        simp
      · rw [if_neg h1]
        simp only [containerFlat, List.flatten_cons]
        rw [List.drop_append_eq_append_drop]
        have : n - b.length = 0 := by omega
        simp [this]

/-- Consuming at least the whole readable run erases every element. -/
theorem containerConsume_all (st : List (List Nat)) (h : [] ∉ st) (n : Nat) :
    containerConsume st ((containerFlat st).length + n) = [] := by
  induction st generalizing n with
  | nil => simp [containerConsume]
  | cons b bs ih =>
    have hb : b ≠ [] := by
      intro hb
      exact h (by simp [hb])
    have hb' : 0 < b.length := List.length_pos.mpr hb
    have hflat : (containerFlat (b :: bs)).length
        = b.length + (containerFlat bs).length := by
      simp [containerFlat]
    simp only [containerConsume]
    rw [if_neg (by omega), if_pos (by omega)]
    have harg : (containerFlat (b :: bs)).length + n - b.length
        = (containerFlat bs).length + n := by omega
    rw [harg]
    exact ih (fun hmem => h (by simp [hmem])) n

/-- Every element left behind by `consume` still holds at least one byte:
fully consumed elements are erased. -/
theorem containerConsume_no_empty (st : List (List Nat)) (n : Nat)
    (h : [] ∉ st) : [] ∉ containerConsume st n := by
  induction st generalizing n with
  | nil => simp [containerConsume]
  | cons b bs ih =>
    have hb : b ≠ [] := by
      intro hb
      exact h (by simp [hb])
    simp only [containerConsume]
    by_cases h0 : n = 0
    · rw [if_pos h0]
      exact h
    · rw [if_neg h0]
      by_cases h1 : b.length ≤ n
      · rw [if_pos h1]
        exact ih _ (fun hmem => h (by simp [hmem]))
      · rw [if_neg h1]
        intro hmem
        rcases List.mem_cons.mp hmem with hd | htl
        · have : (b.drop n).length = b.length - n := by simp [List.length_drop]
          have : b.drop n ≠ [] := by
            intro he
            rw [he] at this
            simp at this
            omega
          exact this hd.symm
        · exact h (by simp [htl])

/-- `flat_static_buffer_base::consume(n)` drops the first `min(n, size())`
readable bytes (and, past the end, empties the buffer), given the cursor
invariant `begin_ ≤ in_ ≤ out_ ≤ end_`. -/
theorem fsbConsume_readable (s : FlatStaticBuffer) (m : Nat)
    (hio : s.inOff ≤ s.outOff) :
    fsbReadable (fsbConsume s m) = (fsbReadable s).drop m
    ∧ fsbSize (fsbConsume s m) = fsbSize s - m := by
  unfold fsbConsume fsbReadable fsbSize
  by_cases h1 : s.outOff - s.inOff ≤ m
  · rw [if_pos h1]
    constructor
    · simp only []
      symm
      apply List.drop_eq_nil_of_le
      rw [List.length_take, List.length_drop]
      simp only [min_le_iff]
      left
      omega
    · simp
      omega
  · rw [if_neg h1]
    constructor
    · simp only []
      rw [List.drop_take, List.drop_drop]
      congr 1
      omega
    · simp
      omega

/-- Claim C6: `consume(n)` removes exactly `min(n, size())` bytes from the
front of the readable run, frees every storage element that becomes fully
consumed (no empty element survives), and consuming at least `size()`
bytes empties the container; likewise `flat_static_buffer_base::consume`
drops `min(n, size())` readable bytes and empties the buffer past the end.
Totality of the model functions reflects that neither can fail. -/
theorem consume_removes_min_from_front (st : List (List Nat)) (n : Nat)
    (s : FlatStaticBuffer) (m : Nat)
    (h : [] ∉ st) (hio : s.inOff ≤ s.outOff) :
    containerFlat (containerConsume st n) = (containerFlat st).drop n
    ∧ containerConsume st ((containerFlat st).length + n) = []
    ∧ [] ∉ containerConsume st n
    ∧ fsbReadable (fsbConsume s m) = (fsbReadable s).drop m
    ∧ fsbSize (fsbConsume s m) = fsbSize s - m := by
  refine ⟨containerConsume_flat st n, containerConsume_all st h n,
    containerConsume_no_empty st n h, ?_, ?_⟩
  · exact (fsbConsume_readable s m hio).1
  · exact (fsbConsume_readable s m hio).2

/-- Witness for C6 at a concrete store, count and flat buffer. -/
theorem consume_removes_min_from_front_witness :
    (([] : List Nat) ∉ [[1], [2, 3]]
      ∧ (⟨[9, 8, 7], 1, 3⟩ : FlatStaticBuffer).inOff
          ≤ (⟨[9, 8, 7], 1, 3⟩ : FlatStaticBuffer).outOff)
    ∧ (containerFlat (containerConsume [[1], [2, 3]] 2)
          = (containerFlat [[1], [2, 3]]).drop 2
       ∧ containerConsume [[1], [2, 3]] ((containerFlat [[1], [2, 3]]).length + 2) = []
       ∧ ([] : List Nat) ∉ containerConsume [[1], [2, 3]] 2
       ∧ fsbReadable (fsbConsume (⟨[9, 8, 7], 1, 3⟩ : FlatStaticBuffer) 1)
          = (fsbReadable (⟨[9, 8, 7], 1, 3⟩ : FlatStaticBuffer)).drop 1
       ∧ fsbSize (fsbConsume (⟨[9, 8, 7], 1, 3⟩ : FlatStaticBuffer) 1)
          = fsbSize (⟨[9, 8, 7], 1, 3⟩ : FlatStaticBuffer) - 1) :=
  ⟨⟨by decide, by decide⟩,
    consume_removes_min_from_front [[1], [2, 3]] 2 ⟨[9, 8, 7], 1, 3⟩ 1
      (by decide) (by decide)⟩

/-- Counterexample to claim C1 as stated: with outstanding prepared bytes
(two `prepare` calls without an intervening `commit`), `prepare(5)` on a
handle with `size() = 0` and `max_size() = 10` throws although
`size() + 5 ≤ max_size()`: the check uses the underlying buffer's size,
which includes the 6 outstanding prepared bytes. -/
theorem dbhandle_prepare_claim_cex :
    hSize (hPrepare (⟨[], 10, 0⟩ : DBHandle) 6).2 + 5
        ≤ hMaxSize (hPrepare (⟨[], 10, 0⟩ : DBHandle) 6).2
    ∧ exceptIsErr (hPrepare (hPrepare (⟨[], 10, 0⟩ : DBHandle) 6).2 5).1 = true
    ∧ (hPrepare (⟨[], 10, 0⟩ : DBHandle) 6).2.prepared = 6 := by decide

/-- Claim C1 (amended): `dynamic_buffer_handle<_, asio_v2_behaviour>::prepare(n)`
throws `std::length_error` exactly when the underlying buffer's size —
`size()` plus the outstanding prepared bytes — plus `n` exceeds
`max_size()`, and on failure the throw happens before any mutation, so the
handle state is unchanged (strong guarantee) — both for every handle state,
outstanding prepared bytes included; when no prepared bytes are outstanding
the failure condition is exactly `size() + n > max_size()`. -/
theorem dbhandle_prepare_failure_condition (s : DBHandle) (n : Nat) :
    (exceptIsErr (hPrepare s n).1 = true ↔ s.maxSize < s.content.length + n)
    ∧ (exceptIsErr (hPrepare s n).1 = true → (hPrepare s n).2 = s)
    ∧ (s.prepared = 0
        → (exceptIsErr (hPrepare s n).1 = true ↔ hMaxSize s < hSize s + n)) := by
  unfold hPrepare hSize hMaxSize dbGrow
  by_cases h1 : s.maxSize < s.content.length + n
  · rw [if_pos h1]
    refine ⟨by simp [exceptIsErr, h1], fun _ => rfl, fun hp => ?_⟩
    simp [exceptIsErr, h1, hp]
  · rw [if_neg h1]
    simp only [if_neg h1]
    refine ⟨by simp [exceptIsErr, h1], by simp [exceptIsErr], fun hp => ?_⟩
    simp [exceptIsErr, h1, hp]

/-- Witness for C1: the unconditional conjuncts at a handle with
outstanding prepared bytes, and the `prepared = 0` coincidence conjunct
discharged at a handle with none. -/
theorem dbhandle_prepare_failure_condition_witness :
    ((exceptIsErr (hPrepare (⟨[0, 0, 0], 4, 3⟩ : DBHandle) 2).1 = true
        ↔ (⟨[0, 0, 0], 4, 3⟩ : DBHandle).maxSize
            < (⟨[0, 0, 0], 4, 3⟩ : DBHandle).content.length + 2)
      ∧ (exceptIsErr (hPrepare (⟨[0, 0, 0], 4, 3⟩ : DBHandle) 2).1 = true
        → (hPrepare (⟨[0, 0, 0], 4, 3⟩ : DBHandle) 2).2
            = (⟨[0, 0, 0], 4, 3⟩ : DBHandle)))
    ∧ ((⟨[1, 2], 10, 0⟩ : DBHandle).prepared = 0
      ∧ (exceptIsErr (hPrepare (⟨[1, 2], 10, 0⟩ : DBHandle) 9).1 = true
          ↔ hMaxSize (⟨[1, 2], 10, 0⟩ : DBHandle)
              < hSize (⟨[1, 2], 10, 0⟩ : DBHandle) + 9)) :=
  ⟨⟨(dbhandle_prepare_failure_condition ⟨[0, 0, 0], 4, 3⟩ 2).1,
      (dbhandle_prepare_failure_condition ⟨[0, 0, 0], 4, 3⟩ 2).2.1⟩,
    by decide,
    (dbhandle_prepare_failure_condition ⟨[1, 2], 10, 0⟩ 9).2.2 (by decide)⟩

/-- Claim C2 evaluated on a failing run: with every transport operation
succeeding and the server selecting no-authentication, `operator()` is
invoked three times and — because `complete_now(ec)` sits after the
`reenter` block, which every `yield` falls out of — each invocation calls
`complete_now`: three completions in one run, the first in the same
invocation that initiated the (still outstanding) greeting write and the
second in the invocation that initiated the (still outstanding) read. -/
theorem socks5_completion_per_invocation :
    traceNoAuth.map InvOut.completed = [ECode.ok, ECode.ok, ECode.notImplemented]
    ∧ traceNoAuth.map InvOut.initiated
        = [some (SAction.write [5, 2, 0, 2]), some (SAction.read 2), none]
    ∧ traceNoAuth.length = 3 := by decide

/-- Claim C3 evaluated on failing inputs of `adjust`:
over two blocks of readable sizes 2 and 1 (total 3), `adjust(1, 5)` — a
limit exceeding the 2 remaining bytes — yields a view of total length 1
instead of the remaining length 2; and over two one-byte blocks,
`adjust(0, 1)` yields a view of total length 2, exceeding the limit.  The
`limit = 0` and `pos ≥ length` cases do produce the empty sentinel view. -/
theorem adjust_limit_clamp_bug :
    seqLength (makeSeq [[10, 20], [30]]) = 3
    ∧ seqLength (seqAdjust (makeSeq [[10, 20], [30]]) 1 5) = 1
    ∧ seqLength (seqAdjust (makeSeq [[7], [8]]) 0 1) = 2
    ∧ seqAdjust (makeSeq [[7], [8]]) 3 0
        = { makeSeq [[7], [8]] with begin_ := nullIter, end_ := nullIter }
    ∧ seqLength (seqAdjust (makeSeq [[7], [8]]) 5 7) = 0 := by decide

/-- Claim C4 evaluated on a failing input: over blocks `[10, 20]` and
`[30]`, applying `adjust(0, 1)` and then `adjust(1, 1)` yields a view whose
flattened bytes are `[20, 30]`, while the single combined
`adjust(0 + 1, min(1, 1 - 1)) = adjust(1, 0)` yields the empty view —
the two are not equivalent (a correct `adjust` would give `[]` for both). -/
theorem adjust_composition_bug :
    seqFlat (seqAdjust (seqAdjust (makeSeq [[10, 20], [30]]) 0 1) 1 1) = [20, 30]
    ∧ seqFlat (seqAdjust (makeSeq [[10, 20], [30]]) (0 + 1) (min 1 (1 - 1))) = [] := by
  decide

/-- Claim C7 evaluated: the first allocation sizes the block at
`min_block_size_` (4096, or the request when larger) — but for a
subsequent request the reversed test `last.available() <= required_space`
makes `add` allocate a new block when the last block's spare capacity
(4086) suffices for 20 bytes, and take the reuse path — tripping
`acquire`'s assertion `available() >= n` — when the spare capacity (5)
does not suffice. -/
theorem sec_add_growth_policy_bug :
    SEC.add ⟨[], 4096⟩ 10 = .ok ⟨[⟨4096, 10⟩], 4096⟩
    ∧ SEC.add ⟨[], 4096⟩ 5000 = .ok ⟨[⟨5000, 5000⟩], 5000⟩
    ∧ (⟨4096, 10⟩ : SElem).available = 4086
    ∧ SEC.add ⟨[⟨4096, 10⟩], 4096⟩ 20 = .ok ⟨[⟨4096, 10⟩, ⟨4096, 20⟩], 4096⟩
    ∧ SEC.add ⟨[⟨10, 5⟩], 4096⟩ 20 = .error .assertionFailed :=
  ⟨rfl, rfl, rfl, rfl, rfl⟩

/-- Claim C8: in the run where the server's method selection picks
username/password and the client's credentials are empty, the only bytes
ever written to the transport are the greeting — the authentication
sub-operation (modelled from the spec) writes nothing — and the final
invocation completes with the missing-username error and initiates no
further operation. -/
theorem socks5_missing_username_run :
    traceWrites traceAuthEmptyCreds = [[5, 2, 0, 2]]
    ∧ (authUsernamePassword [] []).1 = []
    ∧ (authUsernamePassword [] []).2 = ECode.missingUsername
    ∧ traceAuthEmptyCreds.getLast?.map InvOut.completed = some ECode.missingUsername
    ∧ traceAuthEmptyCreds.getLast?.map InvOut.initiated = some none := by decide

/-- Counterexample to claim C9 as stated: the handshake started with empty
credentials writes the greeting `[5, 2, 0, 2]`, which advertises two
methods — including username/password (0x02) — not exactly one. -/
theorem greeting_methods_cex :
    (socks5Invoke [] [] .p0 .ok []).initiated
        = some (SAction.write [5, 2, 0, 2])
    ∧ greetingMethods buildMethodSelectionMessage = [0, 2]
    ∧ 2 ∈ greetingMethods buildMethodSelectionMessage
    ∧ (greetingMethods buildMethodSelectionMessage).length ≠ 1 := by decide

/-- Claim C9 (amended): whatever the credentials, every handshake start
writes the fixed greeting `[0x05, 0x02, 0x00, 0x02]`, advertising exactly
the two methods no-authentication (0x00) and username/password (0x02);
`build_method_selection_message` never consults the credentials. -/
theorem greeting_always_two_methods (u p b : List Nat) (ec : ECode) :
    (socks5Invoke u p .p0 ec b).initiated
        = some (SAction.write buildMethodSelectionMessage)
    ∧ buildMethodSelectionMessage = [5, 2, 0, 2]
    ∧ greetingMethods buildMethodSelectionMessage = [0, 2] :=
  ⟨rfl, rfl, rfl⟩

/-- Counterexample to claim C5 as stated: after `adjust(0, 3)` over three
blocks of readable size 2, the view still spans three positions, the
dereference at interior position 1 is shortened by the final discount
(length 1 instead of the full 2), and the dereference at the last
position 2 is the full undiscounted block (length 2). -/
theorem adjust_interior_discount_cex :
    pdist (seqAdjust (makeSeq [[1, 2], [3, 4], [5, 6]]) 0 3).begin_.f
        (seqAdjust (makeSeq [[1, 2], [3, 4], [5, 6]]) 0 3).end_.f = 3
    ∧ pblkSize [[1, 2], [3, 4], [5, 6]]
        (padd (seqAdjust (makeSeq [[1, 2], [3, 4], [5, 6]]) 0 3).begin_.f 1) = 2
    ∧ (derefIter [[1, 2], [3, 4], [5, 6]]
        (iterAdd (seqAdjust (makeSeq [[1, 2], [3, 4], [5, 6]]) 0 3).begin_ 1)).size = 1
    ∧ (derefIter [[1, 2], [3, 4], [5, 6]]
        (iterAdd (seqAdjust (makeSeq [[1, 2], [3, 4], [5, 6]]) 0 3).begin_ 2)).size
        = 2 := by decide

/-- Claim C5 (amended): dereferencing position `i` of a view yields the
block's full readable region shortened by the initial discount exactly when
`i = 0` (and its amount is nonzero), and by the final discount exactly when
`i` equals the final discount's stored offset `where_` (and its amount is
nonzero) — that offset is the last position for a freshly constructed view,
but `adjust` may leave it at an earlier position; iterator arithmetic
preserves all of this by shifting the stored offsets (the position-based
`applies` check). -/
theorem iterator_discount_applies_positions
    (blocks : List (List Nat)) (it : BufSeqIter) (i : Nat)
    (bs : List (List Nat)) (a b : Int)
    (h0 : it.initD.where_ = 0)
    (hb : (if i = 0 then it.initD.amount else 0)
        + (if (i : Int) = it.finD.where_ then it.finD.amount else 0)
        ≤ pblkSize blocks (padd it.f (i : Int))) :
    (derefIter blocks (iterAdd it (i : Int))).size
      = pblkSize blocks (padd it.f (i : Int))
        - (if i = 0 then it.initD.amount else 0)
        - (if (i : Int) = it.finD.where_ then it.finD.amount else 0)
    ∧ ((iterAdd it (i : Int)).initD.applies = true ↔ (i = 0 ∧ it.initD.amount ≠ 0))
    ∧ ((iterAdd it (i : Int)).finD.applies = true
        ↔ ((i : Int) = it.finD.where_ ∧ it.finD.amount ≠ 0))
    ∧ (makeSeq bs).begin_.initD.where_ = 0
    ∧ (makeSeq bs).begin_.finD.where_ = (bs.length : Int) - 1
    ∧ iterAdd (iterAdd it a) b = iterAdd it (a + b) := by
  have happI : ((iterAdd it (i : Int)).initD.applies = true)
      ↔ (i = 0 ∧ it.initD.amount ≠ 0) := by
    simp only [iterAdd, Discount.shift, Discount.applies, Bool.and_eq_true,
      beq_iff_eq, bne_iff_ne, ne_eq, h0]
    constructor
    · rintro ⟨h1, h2⟩
      exact ⟨by omega, h2⟩
    · rintro ⟨h1, h2⟩
      exact ⟨by omega, h2⟩
  have happF : ((iterAdd it (i : Int)).finD.applies = true)
      ↔ ((i : Int) = it.finD.where_ ∧ it.finD.amount ≠ 0) := by
    simp only [iterAdd, Discount.shift, Discount.applies, Bool.and_eq_true,
      beq_iff_eq, bne_iff_ne, ne_eq]
    constructor
    · rintro ⟨h1, h2⟩
      exact ⟨by omega, h2⟩
    · rintro ⟨h1, h2⟩
      exact ⟨by omega, h2⟩
  have hadd : iterAdd (iterAdd it a) b = iterAdd it (a + b) := by
    cases hf : it.f <;>
      simp [iterAdd, padd, Discount.shift, hf, add_assoc, sub_sub]
  refine ⟨?_, happI, happF, rfl, rfl, hadd⟩
  cases hf : it.f with
  | none =>
    simp [derefIter, iterAdd, padd, pblkSize, hf]
  | some j =>
    have hfi : (iterAdd it (i : Int)).f = some (j + (i : Int)) := by
      simp [iterAdd, padd, hf]
    have hpadd : padd (some j) (i : Int) = some (j + (i : Int)) := by simp [padd]
    rw [hf, hpadd] at hb
    rw [hpadd]
    simp only [pblkSize] at hb ⊢
    simp only [derefIter, hfi]
    simp only [bufAdd, finTrim, wsub, iterAdd, Discount.shift, WSIZE, Nat.min_def]
    split_ifs at hb ⊢ <;>
      simp only [Discount.applies, Bool.and_eq_true, beq_iff_eq, bne_iff_ne, ne_eq,
        h0, zero_sub, neg_eq_zero, Nat.cast_eq_zero, sub_eq_zero] at * <;>
      omega

/-- Witness for C5 at a concrete block array and iterator whose discounts
both apply at position 0. -/
theorem iterator_discount_applies_positions_witness :
    ((⟨some 0, ⟨1, 0⟩, ⟨1, 0⟩⟩ : BufSeqIter).initD.where_ = 0
      ∧ (if (0 : Nat) = 0 then (⟨some 0, ⟨1, 0⟩, ⟨1, 0⟩⟩ : BufSeqIter).initD.amount else 0)
          + (if ((0 : Nat) : Int) = (⟨some 0, ⟨1, 0⟩, ⟨1, 0⟩⟩ : BufSeqIter).finD.where_
              then (⟨some 0, ⟨1, 0⟩, ⟨1, 0⟩⟩ : BufSeqIter).finD.amount else 0)
          ≤ pblkSize [[1, 2, 3]] (padd (⟨some 0, ⟨1, 0⟩, ⟨1, 0⟩⟩ : BufSeqIter).f ((0 : Nat) : Int)))
    ∧ ((derefIter [[1, 2, 3]] (iterAdd (⟨some 0, ⟨1, 0⟩, ⟨1, 0⟩⟩ : BufSeqIter) ((0 : Nat) : Int))).size
        = pblkSize [[1, 2, 3]] (padd (⟨some 0, ⟨1, 0⟩, ⟨1, 0⟩⟩ : BufSeqIter).f ((0 : Nat) : Int))
          - (if (0 : Nat) = 0 then (⟨some 0, ⟨1, 0⟩, ⟨1, 0⟩⟩ : BufSeqIter).initD.amount else 0)
          - (if ((0 : Nat) : Int) = (⟨some 0, ⟨1, 0⟩, ⟨1, 0⟩⟩ : BufSeqIter).finD.where_
              then (⟨some 0, ⟨1, 0⟩, ⟨1, 0⟩⟩ : BufSeqIter).finD.amount else 0)
      ∧ ((iterAdd (⟨some 0, ⟨1, 0⟩, ⟨1, 0⟩⟩ : BufSeqIter) ((0 : Nat) : Int)).initD.applies = true
          ↔ ((0 : Nat) = 0 ∧ (⟨some 0, ⟨1, 0⟩, ⟨1, 0⟩⟩ : BufSeqIter).initD.amount ≠ 0))
      ∧ ((iterAdd (⟨some 0, ⟨1, 0⟩, ⟨1, 0⟩⟩ : BufSeqIter) ((0 : Nat) : Int)).finD.applies = true
          ↔ (((0 : Nat) : Int) = (⟨some 0, ⟨1, 0⟩, ⟨1, 0⟩⟩ : BufSeqIter).finD.where_
              ∧ (⟨some 0, ⟨1, 0⟩, ⟨1, 0⟩⟩ : BufSeqIter).finD.amount ≠ 0))
      ∧ (makeSeq [[9], [8]]).begin_.initD.where_ = 0
      ∧ (makeSeq [[9], [8]]).begin_.finD.where_ = (([[9], [8]] : List (List Nat)).length : Int) - 1
      ∧ iterAdd (iterAdd (⟨some 0, ⟨1, 0⟩, ⟨1, 0⟩⟩ : BufSeqIter) 2) (-1)
          = iterAdd (⟨some 0, ⟨1, 0⟩, ⟨1, 0⟩⟩ : BufSeqIter) (2 + (-1))) :=
  ⟨⟨by decide, by decide⟩,
    iterator_discount_applies_positions [[1, 2, 3]] ⟨some 0, ⟨1, 0⟩, ⟨1, 0⟩⟩ 0
      [[9], [8]] 2 (-1) (by decide) (by decide)⟩
